import Mathlib

/-!
Shallow embedding of the bitlynq client store logic
(TorrentContext reducer and actions, WebSocketContext handlers,
AddTorrentModal magnet validation, api.js utilities) together with
proofs about the claims of the specification.

Numbers carried by records (progress, sizes, rates) are modelled as
rationals, the standard shallowing of JS numbers; record objects are
modelled as structures, the store `state.torrents` as a list.
-/

/-- A transfer record as held in the client store (`state.torrents` of
the TorrentContext reducer).  `download_rate`, `upload_rate` and `peers`
may be absent on a record (JS `undefined`), hence `Option`. -/
structure Torrent where
  hash : String
  name : String
  status : String
  progress : Rat
  size : Rat
  downloaded : Rat
  uploaded : Rat
  download_rate : Option Rat
  upload_rate : Option Rat
  peers : Option Rat
deriving DecidableEq

/-- A payload object of an `UPDATE_TORRENT` action.  JS payloads are
plain objects carrying a `hash` plus any subset of the record fields
(e.g. `pauseTorrent` dispatches only `hash` and `status`; WebSocket
status updates carry full objects).  A field wrapped in `some` is
present on the payload, `none` means the key is absent and the spread
keeps the stored value. -/
structure TorrentPatch where
  hash : String
  name : Option String
  status : Option String
  progress : Option Rat
  size : Option Rat
  downloaded : Option Rat
  uploaded : Option Rat
  download_rate : Option (Option Rat)
  upload_rate : Option (Option Rat)
  peers : Option (Option Rat)
deriving DecidableEq

/-- JS object spread of a payload over a stored record, as in the
reducer branch for UPDATE_TORRENT: every key present on the payload
overwrites the stored one, every absent key keeps the stored value
(`hash` is always present on the payload). -/
def mergePatch (t : Torrent) (p : TorrentPatch) : Torrent where
  hash := p.hash
  name := p.name.getD t.name
  status := p.status.getD t.status
  progress := p.progress.getD t.progress
  size := p.size.getD t.size
  downloaded := p.downloaded.getD t.downloaded
  uploaded := p.uploaded.getD t.uploaded
  download_rate := p.download_rate.getD t.download_rate
  upload_rate := p.upload_rate.getD t.upload_rate
  peers := p.peers.getD t.peers

/-- One record's view of the UPDATE_TORRENT reducer branch: the record
is merged with the payload exactly when its hash matches the payload's
hash, otherwise it is returned unchanged. -/
def stepRecord (t : Torrent) (p : TorrentPatch) : Torrent :=
  if t.hash = p.hash then mergePatch t p else t

/-- torrentReducer, case UPDATE_TORRENT (src/unnamed/part_002, lines
51-57): `state.torrents.map` merging the payload onto every record
whose hash equals the payload's hash. -/
def updateTorrent (store : List Torrent) (p : TorrentPatch) : List Torrent :=
  store.map (fun t => stepRecord t p)

/-- torrentReducer, case REMOVE_TORRENT (src/unnamed/part_002, lines
59-63): keep exactly the records whose hash differs from the payload. -/
def removeAction (store : List Torrent) (h : String) : List Torrent :=
  store.filter (fun t => decide (t.hash ≠ h))

/-- updateTorrentsFromWS (src/unnamed/part_002, lines 220-228): a batch
of status objects is applied with `forEach`, dispatching one
UPDATE_TORRENT per entry, in order. -/
def updateTorrentsFromWS (store : List Torrent) (ps : List TorrentPatch) : List Torrent :=
  ps.foldl updateTorrent store

/-- handleMessage, case `initial_data` (WebSocketContext.jsx lines
92-97): when the message's `data.torrents` is an array it is handed to
`updateTorrentsFromWS`; the store is changed in no other way. -/
def handleInitialData (store : List Torrent) (ts : List TorrentPatch) : List Torrent :=
  updateTorrentsFromWS store ts

/-- Payload dispatched by pauseTorrent on API success
(src/unnamed/part_002, lines 140-143): only `hash` and
`status: 'paused'`. -/
def pausePatch (h : String) : TorrentPatch :=
  ⟨h, none, some "paused", none, none, none, none, none, none, none⟩

/-- pauseTorrent (src/unnamed/part_002, lines 137-149): when the API
call succeeds a single UPDATE_TORRENT with the pause payload is
dispatched; when it fails the catch block only shows a toast and the
store is untouched. -/
def pauseTorrent (store : List Torrent) (h : String) (apiOk : Bool) : List Torrent :=
  if apiOk then updateTorrent store (pausePatch h) else store

/-- removeTorrent (src/unnamed/part_002, lines 167-176): when the API
call succeeds a REMOVE_TORRENT with the hash is dispatched; the
`deleteFiles` flag is only forwarded to the backend and never touches
the store; when the call fails the catch block leaves the store
untouched. -/
def removeTorrent (store : List Torrent) (h : String) (deleteFiles : Bool)
    (apiOk : Bool) : List Torrent :=
  if apiOk then removeAction store h else store

/-- WebSocketContext.jsx line 14. -/
def maxReconnectAttempts : Nat := 10

/-- The distinct close code the server uses for authentication failure
(WebSocketContext.jsx line 61). -/
def authFailureCode : Nat := 4001

/-- The `onclose` handler of the push connection (WebSocketContext.jsx
lines 56-76), viewed as its effect on the reconnection schedule: given
the `reconnectAttempts` value the handler's closure captured and the
close code, it returns `some a` when a reconnection attempt is
scheduled with the state counter advanced to `a`, and `none` when no
reconnection is scheduled (either the authentication-failure code 4001
arrived, or the captured value has reached `maxReconnectAttempts`). -/
def oncloseReconnect (attempts : Nat) (code : Nat) : Option Nat :=
  if code = authFailureCode then none
  else if attempts < maxReconnectAttempts then some (attempts + 1)
  else none

/-- The `reconnectAttempts` binding read by the guard of the n-th
onclose handler in the automatic reconnection chain begun at mount.
`connect` is a closure of one render and the `setTimeout` body calls
that same closure, so the handler installed by the (n+1)-th socket
captures the same binding the n-th handler did; the chain starts from
the mount render, whose binding is the initial state 0.  The
`setReconnectAttempts` updates feed later renders, never this closure,
so the value the guard reads stays 0 however far the chain runs — a
stale closure. -/
def capturedAttempts : Nat → Nat
  | 0 => 0
  | n + 1 => capturedAttempts n

/-- The 20 leading characters every magnet link must carry
(AddTorrentModal, src/unnamed/part_000 line 31). -/
def magnetHead : List Char := "magnet:?xt=urn:btih:".toList

/-- One character of the regex class `[a-fA-F0-9]`. -/
def isHexDigit (c : Char) : Bool :=
  (('0' ≤ c && c ≤ '9') || ('a' ≤ c && c ≤ 'f') || ('A' ≤ c && c ≤ 'F'))

/-- validateMagnetLink (src/unnamed/part_000 lines 30-33), also
utils.isValidMagnetLink (api.js lines 364-367): the regex test of
`magnet:\?xt=urn:btih:` followed by the class `[a-fA-F0-9]` repeated 40
times, anchored only on the left.  The string must begin with the
20-character head followed by at least 40 hex characters; everything
after those 60 characters is unconstrained.  Strings are modelled as
character lists. -/
def validateMagnetLink (cs : List Char) : Bool :=
  decide (cs.take 20 = magnetHead) &&
    decide (((cs.drop 20).take 40).length = 40) &&
    ((cs.drop 20).take 40).all isHexDigit

/-- JS `String.prototype.trim`: strip whitespace from both ends. -/
def jsTrim (cs : List Char) : List Char :=
  (((cs.dropWhile Char.isWhitespace).reverse.dropWhile Char.isWhitespace)).reverse

/-- handleMagnetSubmit (src/unnamed/part_000 lines 35-46), reduced to
whether the add command is delegated to `addTorrent`: an
empty-after-trim input returns early, a value failing
`validateMagnetLink` returns early, otherwise `addTorrent` is invoked
(`true`).  No record is created on the `false` paths since no add
request is ever issued. -/
def handleMagnetSubmit (link : List Char) : Bool :=
  if jsTrim link = [] then false
  else validateMagnetLink link

/-- The readiness predicate of api.js `torrentUtils.isReadyForUpload`
(lines 306-315) and of the CloudSync-style component
(src/unnamed/part_001 lines 544-547): `torrent.progress >= 100.0`. -/
def isReadyForUpload (t : Torrent) : Bool :=
  decide (100 ≤ t.progress)

/-- The readiness predicate of the second component variant
(src/unnamed/part_001 lines 1235-1239): completed or seeding status and
`progress >= 100`. -/
def isReadyForUploadWithStatus (t : Torrent) : Bool :=
  (decide (t.status = "completed") || decide (t.status = "seeding")) &&
    decide (100 ≤ t.progress)

/-- The unit array of formatBytes (api.js lines 333-340 and
src/unnamed/part_002 lines 231-237). -/
def byteUnits : List String := ["B", "KB", "MB", "GB", "TB"]

/-- The unit index `Math.floor(Math.log(bytes) / Math.log(1024))`
computed by formatBytes for a non-zero byte count: the floor of the
base-1024 logarithm. -/
def unitIndex (bytes : Nat) : Nat := Nat.log 1024 bytes

/-- Value rounded to two decimals as a count of hundredths:
`(bytes / den).toFixed(2)` scaled by 100, rounding half up. -/
def toFixed2 (num den : Nat) : Nat := (num * 200 + den) / (den * 2)

/-- Decimal text of `parseFloat((bytes / 1024 ** i).toFixed(2))`:
two-decimal rounding with trailing zeros dropped by parseFloat. -/
def renderValue (bytes i : Nat) : String :=
  let den := 1024 ^ i
  let c := toFixed2 bytes den
  let q := c / 100
  let r := c % 100
  if r = 0 then toString q
  else if r % 10 = 0 then toString q ++ "." ++ toString (r / 10)
  else if r < 10 then toString q ++ ".0" ++ toString r
  else toString q ++ "." ++ toString r

/-- formatBytes (api.js lines 333-340, identically src/unnamed/part_002
lines 231-237): zero maps to "0 B"; otherwise the value scaled by
1024^i with unit `sizes[i]`.  An index past the end of the unit array
reads JS `undefined`, which string concatenation renders as the text
"undefined"; `List.getD` with that default models it. -/
def formatBytes (bytes : Nat) : String :=
  if bytes = 0 then "0 B"
  else renderValue bytes (unitIndex bytes) ++ " " ++
    byteUnits.getD (unitIndex bytes) "undefined"

/-- calculateETA (src/unnamed/part_002 lines 301-309): null unless the
record is downloading with a truthy (present, non-zero) download_rate;
otherwise `Math.floor((size - downloaded) / download_rate)`. -/
def calculateETA (t : Torrent) : Option Int :=
  if t.status ≠ "downloading" ∨ t.download_rate = none ∨ t.download_rate = some 0
  then none
  else some (Rat.floor ((t.size - t.downloaded) / t.download_rate.getD 0))

/-- A JS value read off a record by `a[sortBy]`: a number, a string, or
null/undefined. -/
inductive SVal where
  | num : Rat → SVal
  | str : String → SVal
  | null : SVal
deriving DecidableEq

/-- Comparator preprocessing of sortTorrents (src/unnamed/part_002
lines 317-321): string values are lowercased. -/
def svalLower : SVal → SVal
  | .str s => .str s.toLower
  | v => v

/-- Comparator preprocessing of sortTorrents (lines 323-325): null or
undefined values are replaced by 0. -/
def svalNullToZero : SVal → SVal
  | .null => .num 0
  | v => v

/-- JS `aVal > bVal` on the preprocessed values; comparisons across
types are modelled as false (the sorted column holds one type). -/
def svalGtB : SVal → SVal → Bool
  | .num a, .num b => decide (b < a)
  | .str a, .str b => decide (b < a)
  | _, _ => false

/-- JS `aVal < bVal` on the preprocessed values. -/
def svalLtB : SVal → SVal → Bool
  | .num a, .num b => decide (a < b)
  | .str a, .str b => decide (a < b)
  | _, _ => false

/-- The comparator of sortTorrents (src/unnamed/part_002 lines
313-332): ascending order returns 1 when `aVal > bVal` and -1
otherwise; descending returns 1 when `aVal < bVal` and -1 otherwise.
The field access `a[sortBy]` is modelled by an arbitrary key function,
covering every sort field. -/
def jsComparator (asc : Bool) (key : Torrent → SVal) (a b : Torrent) : Int :=
  let aVal := svalNullToZero (svalLower (key a))
  let bVal := svalNullToZero (svalLower (key b))
  if asc then (if svalGtB aVal bVal then 1 else -1)
  else (if svalLtB aVal bVal then 1 else -1)

/-- sortTorrents (src/unnamed/part_002 lines 311-333): the spread
`[...torrents]` copies the array (the input itself is untouched, which
the purely functional embedding renders by construction) and `.sort`
reorders the copy by the comparator; a comparator result below zero
keeps `a` before `b`. -/
def sortTorrents (l : List Torrent) (key : Torrent → SVal) (asc : Bool) : List Torrent :=
  l.mergeSort (fun a b => decide (jsComparator asc key a b ≤ 0))

/-- Modelled from the spec and claim wording for C6, for comparison
with the code's `validateMagnetLink`: the source matches
`magnet:?xt=urn:btih:` followed by exactly 40 hexadecimal digits — the
infohash segment consists of exactly 40 hex digits, so either the
string ends right after them or the next character is not a hex
digit. -/
def specMagnetExactly40 (cs : List Char) : Prop :=
  ∃ hx rest, cs = magnetHead ++ hx ++ rest ∧ hx.length = 40 ∧
    (∀ c ∈ hx, isHexDigit c = true) ∧ (∀ c ∈ rest.head?, isHexDigit c = false)

/-- A well-formed formatBytes result: some value text, a space, and a
unit drawn from the unit array. -/
def wellFormedSize (s : String) : Prop :=
  ∃ v u, u ∈ byteUnits ∧ s = v ++ " " ++ u

/-- A magnet link whose infohash segment holds 41 hex digits, one more
than an infohash can have. -/
def magnet41 : List Char := magnetHead ++ List.replicate 41 'a'

/-- A concrete record used for counterexamples and witnesses. -/
def demoTorrent : Torrent :=
  ⟨"a1", "ubuntu.iso", "downloading", 50, 1000, 500, 0, some 10, some 5, some 3⟩

/-- A second concrete record with a different hash. -/
def demoTorrentB : Torrent :=
  ⟨"b2", "other.mkv", "paused", 20, 800, 160, 0, some 0, none, none⟩

/-- A record that has finished downloading but whose status is still
`downloading`. -/
def demoCompleteDl : Torrent :=
  ⟨"d4", "done.bin", "downloading", 100, 1000, 1000, 0, some 0, none, none⟩

/-- A status payload whose hash matches no record of an empty store. -/
def demoPatch : TorrentPatch :=
  ⟨"c3", some "fresh.iso", some "downloading", some 10, some 2048, some 200,
    some 0, some (some 7), some (some 1), some (some 2)⟩

/-- A status payload carrying a smaller progress value for demoTorrent. -/
def dropPatch : TorrentPatch :=
  ⟨"a1", none, none, some 30, none, none, none, none, none, none⟩

/-- A status payload carrying a larger progress value for demoTorrent. -/
def risePatch : TorrentPatch :=
  ⟨"a1", none, none, some 75, none, none, none, none, none, none⟩

/-- Merging a payload cannot change a matching record's hash: the
payload's hash overwrites it, but the branch fires only on equality. -/
theorem stepRecord_hash (t : Torrent) (p : TorrentPatch) :
    (stepRecord t p).hash = t.hash := by
  unfold stepRecord
  split
  · rename_i h
    simp [mergePatch, h]
  · rfl

/-- UPDATE_TORRENT preserves the store's length. -/
theorem updateTorrent_length (s : List Torrent) (p : TorrentPatch) :
    (updateTorrent s p).length = s.length := by
  simp [updateTorrent]

/-- A batch of UPDATE_TORRENT actions preserves the store's length. -/
theorem updateTorrentsFromWS_length (ps : List TorrentPatch) (s : List Torrent) :
    (updateTorrentsFromWS s ps).length = s.length := by
  induction ps generalizing s with
  | nil => rfl
  | cons p ps ih =>
    show (updateTorrentsFromWS (updateTorrent s p) ps).length = s.length
    rw [ih, updateTorrent_length]

/-- Positional view of one UPDATE_TORRENT action. -/
theorem updateTorrent_getD (s : List Torrent) (p : TorrentPatch) (i : Nat)
    (d : Torrent) (hi : i < s.length) :
    (updateTorrent s p).getD i d = stepRecord (s.getD i d) p := by
  have hsome : s[i]? = some s[i] := List.getElem?_eq_getElem hi
  simp [updateTorrent, List.getD_eq_getElem?_getD, List.getElem?_map, hsome]

/-- Positional view of a batch of UPDATE_TORRENT actions: the record at
each position is the left fold of the merge step over the whole batch. -/
theorem updateTorrentsFromWS_getD (ps : List TorrentPatch) (s : List Torrent)
    (i : Nat) (d : Torrent) (hi : i < s.length) :
    (updateTorrentsFromWS s ps).getD i d = ps.foldl stepRecord (s.getD i d) := by
  induction ps generalizing s with
  | nil => rfl
  | cons p ps ih =>
    show (updateTorrentsFromWS (updateTorrent s p) ps).getD i d = _
    rw [ih (updateTorrent s p) (by rw [updateTorrent_length]; exact hi),
      updateTorrent_getD s p i d hi, List.foldl_cons]

/-- UPDATE_TORRENT preserves the stored hashes, position by position. -/
theorem updateTorrent_map_hash (s : List Torrent) (p : TorrentPatch) :
    (updateTorrent s p).map Torrent.hash = s.map Torrent.hash := by
  unfold updateTorrent
  rw [List.map_map]
  exact List.map_congr_left (fun t _ => stepRecord_hash t p)

/-- A batch of UPDATE_TORRENT actions preserves the stored hashes. -/
theorem updateTorrentsFromWS_map_hash (ps : List TorrentPatch) (s : List Torrent) :
    (updateTorrentsFromWS s ps).map Torrent.hash = s.map Torrent.hash := by
  induction ps generalizing s with
  | nil => rfl
  | cons p ps ih =>
    show (updateTorrentsFromWS (updateTorrent s p) ps).map Torrent.hash = _
    rw [ih, updateTorrent_map_hash]

/-- Claim C4: a successful pauseTorrent(hash) sets the status of every
record carrying that hash to "paused" and leaves every other field and
every other record unchanged (the map characterization); when every
record with that hash is already paused — in particular when no record
carries the hash at all — the store is left entirely unchanged, and the
operation is not an error. -/
theorem C4_pause_effect (store : List Torrent) (h : String) :
    pauseTorrent store h true =
      store.map (fun t => if t.hash = h then { t with status := "paused" } else t) ∧
    ((∀ t ∈ store, t.hash = h → t.status = "paused") → pauseTorrent store h true = store) := by
  have hmap : pauseTorrent store h true =
      store.map (fun t => if t.hash = h then { t with status := "paused" } else t) := by
    show updateTorrent store (pausePatch h) = _
    unfold updateTorrent
    refine List.map_congr_left (fun t _ => ?_)
    unfold stepRecord
    by_cases ht : t.hash = h
    · rw [if_pos (by simpa [pausePatch] using ht), if_pos ht]
      cases t
      simp_all [mergePatch, pausePatch]
    · rw [if_neg (by simpa [pausePatch] using ht), if_neg ht]
  refine ⟨hmap, fun hall => ?_⟩
  rw [hmap]
  have : ∀ t ∈ store,
      (if t.hash = h then { t with status := "paused" } else t) = t := by
    intro t ht
    by_cases hth : t.hash = h
    · rw [if_pos hth]
      have hst : t.status = "paused" := hall t ht hth
      cases t
      simp_all
    · rw [if_neg hth]
  rw [List.map_congr_left this]
  simp

/-- Witness for C4 at a concrete store: pausing a hash that no record
carries leaves the store unchanged, and the map characterization holds. -/
theorem C4_pause_witness :
    pauseTorrent [demoTorrentB] "zz" true =
      [demoTorrentB].map (fun t => if t.hash = "zz" then { t with status := "paused" } else t) ∧
    pauseTorrent [demoTorrentB] "zz" true = [demoTorrentB] :=
  ⟨(C4_pause_effect [demoTorrentB] "zz").1,
   (C4_pause_effect [demoTorrentB] "zz").2 (by decide)⟩

/-- Claim C5: after a successful removeTorrent(hash, deleteFiles) no
record with that hash remains, the store is exactly the original with
the records of that hash filtered out (every record with another
identifier is kept, unchanged and in order), the store effect is the
same for both values of deleteFiles, and a failed backend call leaves
the store entirely unchanged. -/
theorem C5_remove_effect (store : List Torrent) (h : String) (df : Bool) :
    (∀ t ∈ removeTorrent store h df true, t.hash ≠ h) ∧
    removeTorrent store h df true = store.filter (fun t => decide (t.hash ≠ h)) ∧
    (∀ t ∈ store, t.hash ≠ h → t ∈ removeTorrent store h df true) ∧
    removeTorrent store h true true = removeTorrent store h false true ∧
    removeTorrent store h df false = store := by
  refine ⟨?_, ?_, ?_, ?_, ?_⟩
  · intro t ht
    have ht2 : t ∈ store.filter (fun t => decide (t.hash ≠ h)) := ht
    have := List.of_mem_filter ht2
    simpa using this
  · cases df <;> rfl
  · intro t ht hne
    show t ∈ removeAction store h
    simp only [removeAction, List.mem_filter]
    exact ⟨ht, by simpa using hne⟩
  · rfl
  · cases df <;> rfl

/-- Witness for C5 at a concrete store: removing hash "a1" keeps the
other record, yields the filtered store, and a failed call is a no-op. -/
theorem C5_remove_witness :
    removeTorrent [demoTorrent, demoTorrentB] "a1" true true =
      [demoTorrent, demoTorrentB].filter (fun t => decide (t.hash ≠ "a1")) ∧
    demoTorrentB ∈ removeTorrent [demoTorrent, demoTorrentB] "a1" true true ∧
    removeTorrent [demoTorrent, demoTorrentB] "a1" true false =
      [demoTorrent, demoTorrentB] :=
  ⟨(C5_remove_effect [demoTorrent, demoTorrentB] "a1" true).2.1,
   (C5_remove_effect [demoTorrent, demoTorrentB] "a1" true).2.2.1 demoTorrentB
     (by decide) (by decide),
   (C5_remove_effect [demoTorrent, demoTorrentB] "a1" true).2.2.2.2⟩

/-- Counterexample to claim C1 as stated: an `initial_data` message
carrying one transfer the client has never seen (empty store) leaves
the store empty — the transmitted record is not present afterwards,
because UPDATE_TORRENT only maps over existing records and never adds
one. -/
theorem C1_counterexample :
    handleInitialData [] [demoPatch] = [] ∧
    ∀ t ∈ handleInitialData [] [demoPatch], t.hash ≠ demoPatch.hash := by
  refine ⟨rfl, ?_⟩
  intro t ht
  simp [handleInitialData, updateTorrentsFromWS, updateTorrent] at ht

/-- Claim C1 as amended: handling `initial_data` never changes which
hashes the store holds (so transfers never seen before are not added),
and the record at each position of the store becomes the left fold of
the payload merge over all entries of the message, in message order —
in particular a record whose hash matches an entry receives that
entry's transmitted field values. -/
theorem C1_initialData_merge (store : List Torrent) (ts : List TorrentPatch)
    (d : Torrent) (i : Nat) (hi : i < store.length) :
    (handleInitialData store ts).map Torrent.hash = store.map Torrent.hash ∧
    (handleInitialData store ts).getD i d = ts.foldl stepRecord (store.getD i d) :=
  ⟨updateTorrentsFromWS_map_hash ts store,
   updateTorrentsFromWS_getD ts store i d hi⟩

/-- Witness for C1 at a concrete store: one stored record, one matching
message entry. -/
theorem C1_initialData_witness :
    (handleInitialData [demoTorrent] [dropPatch]).map Torrent.hash =
      [demoTorrent].map Torrent.hash ∧
    (handleInitialData [demoTorrent] [dropPatch]).getD 0 demoTorrent =
      [dropPatch].foldl stepRecord ([demoTorrent].getD 0 demoTorrent) :=
  C1_initialData_merge [demoTorrent] [dropPatch] demoTorrent 0 (by decide)

/-- Counterexample to claim C2 as stated: a record at progress 50
receives a status-update batch carrying progress 30 and drops to 30,
although no recheck command was issued anywhere — the client applies
transmitted values verbatim. -/
theorem C2_counterexample :
    demoTorrent.progress = 50 ∧ dropPatch.progress = some 30 ∧
    ((updateTorrentsFromWS [demoTorrent] [dropPatch]).getD 0 demoTorrent).progress = 30 := by
  refine ⟨rfl, rfl, ?_⟩
  decide

/-- Fold step of C2: if every matching payload of the batch carries a
progress at least the starting one, the fold never drops below the
starting progress. -/
theorem foldl_progress_mono (ps : List TorrentPatch) (t0 : Torrent) :
    ∀ t : Torrent, t.hash = t0.hash → t0.progress ≤ t.progress →
    (∀ p ∈ ps, p.hash = t0.hash → t0.progress ≤ p.progress.getD t0.progress) →
    t0.progress ≤ (ps.foldl stepRecord t).progress := by
  induction ps with
  | nil =>
    intro t _ hp _
    simpa using hp
  | cons p ps ih =>
    intro t hh hp hsent
    rw [List.foldl_cons]
    refine ih (stepRecord t p) (by rw [stepRecord_hash]; exact hh) ?_
      (fun q hq hqh => hsent q (by simp [hq]) hqh)
    unfold stepRecord
    split
    · rename_i heq
      cases hpp : p.progress with
      | none => simpa [mergePatch, hpp] using hp
      | some q =>
        have h2 := hsent p (by simp) (heq.symm.trans hh)
        rw [hpp] at h2
        simpa [mergePatch, hpp] using h2
    · exact hp

/-- Claim C2 as amended: across a status-update batch applied via
updateTorrentsFromWS a record's progress is non-decreasing provided
every transmitted progress value for that record's hash is at least the
record's current progress — the client itself overwrites progress with
the transmitted value and does not enforce the invariant (no recheck
handling exists on this path), so monotonicity is a property of the
values the server sends. -/
theorem C2_progress_monotone (store : List Torrent) (ps : List TorrentPatch)
    (d : Torrent) (i : Nat) (hi : i < store.length)
    (hsent : ∀ p ∈ ps, p.hash = (store.getD i d).hash →
      (store.getD i d).progress ≤ p.progress.getD (store.getD i d).progress) :
    (store.getD i d).progress ≤ ((updateTorrentsFromWS store ps).getD i d).progress := by
  rw [updateTorrentsFromWS_getD ps store i d hi]
  exact foldl_progress_mono ps (store.getD i d) (store.getD i d) rfl le_rfl hsent

/-- Witness for C2 at a concrete store: a batch carrying a larger
progress value keeps progress non-decreasing. -/
theorem C2_progress_witness :
    ([demoTorrent].getD 0 demoTorrent).progress ≤
      ((updateTorrentsFromWS [demoTorrent] [risePatch]).getD 0 demoTorrent).progress :=
  C2_progress_monotone [demoTorrent] [risePatch] demoTorrent 0 (by decide) (by decide)

/-- Claim C3, checked against the code it was written from: the 4001
early return is faithful — no reconnection is ever scheduled on the
authentication-failure close code, whatever value the handler captured
— and for any other code a handler schedules a reconnection exactly
while its captured counter is below maxReconnectAttempts (10).  But the
guard of every handler in the automatic reconnection chain reads the
stale captured binding, which stays 0 forever, so on the failure after
any number n of consecutive failed attempts — the 11th close included —
the code still schedules a reconnection: it never stops after 10
attempts, contradicting its own `maxReconnectAttempts` constant and its
give-up branch, which are unreachable along this chain. -/
theorem C3_reconnect_policy (a c n : Nat) :
    (c = 4001 → oncloseReconnect a c = none) ∧
    (c ≠ 4001 → (oncloseReconnect a c = some (a + 1) ↔ a < maxReconnectAttempts)) ∧
    capturedAttempts n = 0 ∧
    (c ≠ 4001 → oncloseReconnect (capturedAttempts n) c = some 1) := by
  have hcap : capturedAttempts n = 0 := by
    induction n with
    | zero => rfl
    | succ m ih => exact ih
  refine ⟨?_, ?_, hcap, ?_⟩
  · intro hc
    simp [oncloseReconnect, authFailureCode, hc]
  · intro hc
    rw [oncloseReconnect, if_neg (by simpa [authFailureCode] using hc)]
    constructor
    · intro hsome
      by_contra hlt
      rw [if_neg hlt] at hsome
      exact Option.noConfusion hsome
    · intro hlt
      rw [if_pos hlt]
  · intro hc
    rw [hcap, oncloseReconnect, if_neg (by simpa [authFailureCode] using hc)]
    simp [maxReconnectAttempts]

/-- Witness for C3 at concrete inputs: close code 4001 schedules
nothing; an abnormal close (1006) on a handler that captured 3
schedules attempt 4; and on the close ending the 11th consecutive
failed attempt of the mount chain the guard still reads 0 and schedules
yet another reconnection instead of stopping. -/
theorem C3_reconnect_witness :
    oncloseReconnect 3 4001 = none ∧ oncloseReconnect 3 1006 = some 4 ∧
    capturedAttempts 10 = 0 ∧ oncloseReconnect (capturedAttempts 10) 1006 = some 1 :=
  ⟨(C3_reconnect_policy 3 4001 10).1 rfl,
   ((C3_reconnect_policy 3 1006 10).2.1 (by decide)).2 (by decide),
   (C3_reconnect_policy 3 1006 10).2.2.1,
   (C3_reconnect_policy 3 1006 10).2.2.2 (by decide)⟩

/-- Counterexample to claim C7 as stated: a record with progress
exactly 100 whose status is still `downloading` is not offered by the
TorrentList readiness variant, so that predicate does not decide
`progress = 100`. -/
theorem C7_counterexample :
    demoCompleteDl.progress = 100 ∧
    isReadyForUploadWithStatus demoCompleteDl = false := by
  exact ⟨rfl, by decide⟩

/-- Claim C7 as amended: the api.js/CloudSync readiness predicate
decides `progress ≥ 100`, which coincides with `progress = 100`
whenever progress is within its documented 0-100 range; the TorrentList
variant additionally requires status `completed` or `seeding`; and for
progress below 100 neither variant reports ready, so no export is
started. -/
theorem C7_ready_iff (t : Torrent) :
    (isReadyForUpload t = true ↔ 100 ≤ t.progress) ∧
    (t.progress ≤ 100 → (isReadyForUpload t = true ↔ t.progress = 100)) ∧
    (isReadyForUploadWithStatus t = true ↔
      ((t.status = "completed" ∨ t.status = "seeding") ∧ 100 ≤ t.progress)) ∧
    (t.progress < 100 →
      isReadyForUpload t = false ∧ isReadyForUploadWithStatus t = false) := by
  refine ⟨?_, ?_, ?_, ?_⟩
  · simp [isReadyForUpload]
  · intro hle
    simp only [isReadyForUpload, decide_eq_true_eq]
    constructor
    · intro hge
      exact le_antisymm hle hge
    · intro heq
      exact le_of_eq heq.symm
  · simp [isReadyForUploadWithStatus, Bool.and_eq_true, Bool.or_eq_true]
  · intro hlt
    constructor
    · simp only [isReadyForUpload, decide_eq_false_iff_not]
      exact not_le_of_lt hlt
    · simp only [isReadyForUploadWithStatus, Bool.and_eq_false_iff]
      right
      simp only [decide_eq_false_iff_not]
      exact not_le_of_lt hlt

/-- Witness for C7 at concrete records: the completed-but-downloading
record satisfies the api.js predicate and equals 100 under the range
hypothesis; the half-done record is ready under neither variant. -/
theorem C7_ready_witness :
    (isReadyForUpload demoCompleteDl = true ↔ demoCompleteDl.progress = 100) ∧
    (isReadyForUpload demoTorrent = false ∧
      isReadyForUploadWithStatus demoTorrent = false) :=
  ⟨(C7_ready_iff demoCompleteDl).2.1 (by decide),
   (C7_ready_iff demoTorrent).2.2.2 (by decide)⟩

/-- The JS trim used by handleMagnetSubmit yields the empty string
exactly when the input is all whitespace. -/
theorem jsTrim_eq_nil_iff (l : List Char) :
    jsTrim l = [] ↔ ∀ c ∈ l, c.isWhitespace = true := by
  unfold jsTrim
  rw [List.reverse_eq_nil_iff, List.dropWhile_eq_nil_iff]
  constructor
  · intro hall c hc
    have hsplit : c ∈ l.takeWhile Char.isWhitespace ++ l.dropWhile Char.isWhitespace := by
      rw [List.takeWhile_append_dropWhile]
      exact hc
    rcases List.mem_append.mp hsplit with h1 | h2
    · exact List.mem_takeWhile_imp h1
    · exact hall c (List.mem_reverse.mpr h2)
  · intro hall c hc
    exact hall c ((List.dropWhile_sublist Char.isWhitespace).mem (List.mem_reverse.mp hc))

/-- Counterexample to claim C6 as stated: a magnet link whose infohash
segment holds 41 hexadecimal digits is delegated to the add path — the
regex is unanchored on the right, so the add command is issued although
the string is not the head followed by exactly 40 hex digits. -/
theorem C6_counterexample :
    handleMagnetSubmit magnet41 = true ∧ ¬ specMagnetExactly40 magnet41 := by
  constructor
  · decide
  · rintro ⟨hx, rest, heq, hlen, hhex, hrest⟩
    have h0 : magnetHead ++ (hx ++ rest) = magnetHead ++ List.replicate 41 'a' := by
      rw [← List.append_assoc, ← heq]
      rfl
    have h1 : hx ++ rest = List.replicate 41 'a' := List.append_cancel_left h0
    have h2 : hx ++ rest = List.replicate 40 'a' ++ List.replicate 1 'a' := by
      rw [h1, ← List.replicate_add]
    have hrest1 : rest = List.replicate 1 'a' :=
      List.append_inj_right h2 (by simp [hlen])
    have hbad : isHexDigit 'a' = false := hrest 'a' (by simp [hrest1])
    simp [isHexDigit] at hbad

/-- Claim C6 as amended: the magnet submit path delegates the add
command if and only if the source starts with `magnet:?xt=urn:btih:`
followed by 40 hexadecimal characters; the characters after those
first 60, hexadecimal or not, are never inspected.  A source failing
this check is rejected before any add request is issued, so no record
is created for it. -/
theorem C6_magnet_validation (link : List Char) :
    handleMagnetSubmit link = true ↔
      ∃ hx rest, link = magnetHead ++ hx ++ rest ∧ hx.length = 40 ∧
        ∀ c ∈ hx, isHexDigit c = true := by
  constructor
  · intro hsub
    unfold handleMagnetSubmit at hsub
    split at hsub
    · exact absurd hsub (by simp)
    · unfold validateMagnetLink at hsub
      rw [Bool.and_eq_true, Bool.and_eq_true] at hsub
      obtain ⟨⟨h1, h2⟩, h3⟩ := hsub
      rw [decide_eq_true_eq] at h1 h2
      refine ⟨(link.drop 20).take 40, (link.drop 20).drop 40, ?_, h2, ?_⟩
      · rw [List.append_assoc, List.take_append_drop, ← h1, List.take_append_drop]
      · intro c hc
        exact List.all_eq_true.mp h3 c hc
  · rintro ⟨hx, rest, heq, hlen, hhex⟩
    have hml : magnetHead.length = 20 := by decide
    unfold handleMagnetSubmit
    rw [if_neg ?_]
    · unfold validateMagnetLink
      rw [Bool.and_eq_true, Bool.and_eq_true]
      have hdrop : link.drop 20 = hx ++ rest := by
        rw [heq, List.append_assoc, ← hml, List.drop_left]
      have htake : link.take 20 = magnetHead := by
        rw [heq, List.append_assoc, ← hml, List.take_left]
      have htake40 : (link.drop 20).take 40 = hx := by
        rw [hdrop, ← hlen, List.take_left]
      refine ⟨⟨?_, ?_⟩, ?_⟩
      · simp [htake]
      · simp [htake40, hlen]
      · rw [htake40, List.all_eq_true]
        exact hhex
    · rw [jsTrim_eq_nil_iff]
      intro hall
      have hm : 'm' ∈ link := by
        rw [heq]
        exact List.mem_append.mpr (Or.inl (List.mem_append.mpr (Or.inl (by decide))))
      exact absurd (hall 'm' hm) (by decide)

/-- Counterexample to claim C8 as stated: at 1024^5 bytes (1 pebibyte)
the computed unit index is 5, one past the end of the five-element unit
array, and the rendered string carries the text "undefined" instead of
a unit — the index does not stay within bounds for every non-negative
byte count. -/
theorem C8_counterexample :
    unitIndex (1024 ^ 5) = 5 ∧ ¬ unitIndex (1024 ^ 5) < byteUnits.length ∧
    formatBytes (1024 ^ 5) = "1 undefined" := by
  have h5 : unitIndex (1024 ^ 5) = 5 := Nat.log_pow (by norm_num) 5
  refine ⟨h5, by rw [h5]; decide, ?_⟩
  have hr : renderValue (1024 ^ 5) 5 = "1" := by decide
  have hu : byteUnits.getD 5 "undefined" = "undefined" := rfl
  rw [formatBytes, if_neg (by norm_num), h5, hr, hu]
  rfl

/-- Claim C8 as amended: for every byte count below 1024^5 the unit
index floor(log_1024(bytes)) stays within the bounds of the unit array,
the result is a well-formed "value unit" string whose unit is drawn
from the array, and an input of 0 returns "0 B". -/
theorem C8_formatBytes_inBounds (bytes : Nat) (hb : bytes < 1024 ^ 5) :
    unitIndex bytes < byteUnits.length ∧
    (bytes = 0 → formatBytes bytes = "0 B") ∧
    wellFormedSize (formatBytes bytes) := by
  have hidx : unitIndex bytes < 5 := by
    rcases Nat.eq_zero_or_pos bytes with h0 | hpos
    · simp [unitIndex, h0]
    · exact Nat.log_lt_of_lt_pow (Nat.pos_iff_ne_zero.mp hpos) hb
  have hlen : unitIndex bytes < byteUnits.length := by
    simpa [byteUnits] using hidx
  refine ⟨hlen, fun h0 => by simp [formatBytes, h0], ?_⟩
  by_cases h0 : bytes = 0
  · exact ⟨"0", "B", by simp [byteUnits], by simp [formatBytes, h0]⟩
  · refine ⟨renderValue bytes (unitIndex bytes),
      byteUnits.getD (unitIndex bytes) "undefined", ?_, by simp [formatBytes, h0]⟩
    rw [List.getD_eq_getElem?_getD, List.getElem?_eq_getElem hlen]
    exact List.getElem_mem hlen

/-- Witness for C8 at the concrete input 0: index in bounds, result
"0 B" and well-formed. -/
theorem C8_formatBytes_witness :
    unitIndex 0 < byteUnits.length ∧ (0 = 0 → formatBytes 0 = "0 B") ∧
    wellFormedSize (formatBytes 0) :=
  C8_formatBytes_inBounds 0 (by norm_num)

/-- Claim C9: calculateETA returns none whenever the record is not
downloading or its download rate is absent or zero — so the division is
never evaluated with a zero divisor — and otherwise returns the floor
of (size - downloaded) / download_rate. -/
theorem C9_eta_guard (t : Torrent) :
    ((t.status ≠ "downloading" ∨ t.download_rate = none ∨ t.download_rate = some 0) →
      calculateETA t = none) ∧
    (∀ r : Rat, t.download_rate = some r → r ≠ 0 → t.status = "downloading" →
      calculateETA t = some (Rat.floor ((t.size - t.downloaded) / r))) := by
  constructor
  · intro hg
    rw [calculateETA, if_pos hg]
  · intro r hr hr0 hst
    have hneg : ¬(t.status ≠ "downloading" ∨ t.download_rate = none ∨
        t.download_rate = some 0) := by
      push_neg
      exact ⟨hst, by simp [hr], by simp [hr, hr0]⟩
    rw [calculateETA, if_neg hneg, hr]
    simp

/-- Witness for C9 at concrete records: the paused record with zero
rate yields none; the downloading record at rate 10 yields the floored
quotient. -/
theorem C9_eta_witness :
    calculateETA demoTorrentB = none ∧
    calculateETA demoTorrent =
      some (Rat.floor ((demoTorrent.size - demoTorrent.downloaded) / 10)) :=
  ⟨(C9_eta_guard demoTorrentB).1 (by decide),
   (C9_eta_guard demoTorrent).2 10 rfl (by norm_num) rfl⟩

/-- Claim C10: for every record list, every sort key and both orders,
sortTorrents returns a permutation of its input — the same records with
the same multiplicities; the input list itself is untouched, which the
purely functional embedding of the `[...torrents]` copy renders by
construction. -/
theorem C10_sortTorrents_perm (l : List Torrent) (key : Torrent → SVal) (asc : Bool) :
    (sortTorrents l key asc).Perm l ∧
    ∀ t : Torrent, (sortTorrents l key asc).count t = l.count t := by
  have hp : (sortTorrents l key asc).Perm l := List.mergeSort_perm l _
  exact ⟨hp, fun t => hp.count_eq t⟩
